import Mathlib

/-
Verification of the offset-based entity normalization core of
`flair/datasets/biomedical.py`: the `Entity` span predicates, the nested-entity
conflict resolver (`filter_nested_entities`), the dataset merging and type
filtering helpers (`merge_datasets`, `filter_and_map_entities`), and the
per-token tagging loop of `CoNLLWriter.write_to_conll`.

Python integers are modelled as `Nat` where the source only ever handles
character offsets and counts, and as `Int` where the source can go negative
(the reconstruction cursor `p` and the removed-entity count).  Python dicts
are modelled as association lists with unique keys; `dictInsert` mirrors
`dict.__setitem__` (replace in place if the key is present, append otherwise).
-/

namespace Biomedical

/-- One annotated mention: a half-open character span plus a type label.
`Entity.__init__` stores `char_span = range(start, stop)`; we keep the two
endpoints directly. -/
structure Entity where
  start : Nat
  stop : Nat
  type : String
deriving DecidableEq

/-- Constructor of `Entity`: `__init__` asserts `char_span[0] < char_span[1]`,
so construction fails (models the failed assertion as `none`) unless
`start < stop`. -/
def Entity.make (char_span : Nat × Nat) (entity_type : String) : Option Entity :=
  if char_span.1 < char_span.2 then some ⟨char_span.1, char_span.2, entity_type⟩ else none

/-- `len(entity.char_span)` for `char_span = range(start, stop)`. -/
def Entity.length (e : Entity) : Nat := e.stop - e.start

/-- `Entity.overlaps` as written in the source:
`(self.start <= other.start < self.stop) or (self.start < other.stop <= self.stop)`. -/
def Entity.overlaps (e other_entity : Entity) : Bool :=
  (decide (e.start ≤ other_entity.start) && decide (other_entity.start < e.stop)) ||
  (decide (e.start < other_entity.stop) && decide (other_entity.stop ≤ e.stop))

/-- Spec-side predicate for comparison with `Entity.overlaps`: the two
half-open intervals `[a.start, a.stop)` and `[b.start, b.stop)` intersect. -/
def specIntervalsIntersect (a b : Entity) : Bool :=
  decide (a.start < b.stop) && decide (b.start < a.stop)

/-- The `(position_end, num_entities, sum_lengths, last_entity)` tuples of the
`dp_array` in `filter_nested_entities`. -/
structure DpEntry where
  position_end : Nat
  num_entities : Nat
  sum_lengths : Nat
  last_entity : Option Entity
deriving DecidableEq

/-- The backward search `while dp_array[i][0] > entity.char_span.start: i -= 1`.
The dp array is kept in reverse (most recent entry first), so walking towards
the tail is walking towards smaller indices of the Python list. -/
def findCompatible (s : Nat) : List DpEntry → DpEntry
  | [] => ⟨0, 0, 0, none⟩
  | d :: rest => if s < d.position_end then findCompatible s rest else d

/-- One iteration of the dp loop of `filter_nested_entities`: either append an
improved entry for the current entity or repeat the current best entry.  The
list holds the Python `dp_array` in reverse, so `headD` is `dp_array[-1]` and
cons is `dp_array += [...]`. -/
def dpStep (rdp : List DpEntry) (entity : Entity) : List DpEntry :=
  let best_so_far := rdp.headD ⟨0, 0, 0, none⟩
  let compatible := findCompatible entity.start rdp
  if compatible.num_entities + 1 > best_so_far.num_entities ∨
      (compatible.num_entities + 1 = best_so_far.num_entities ∧
        compatible.sum_lengths + entity.length > best_so_far.sum_lengths) then
    ⟨entity.stop, compatible.num_entities + 1,
      compatible.sum_lengths + entity.length, some entity⟩ :: rdp
  else
    best_so_far :: rdp

/-- Stable insertion used to model `sorted(entities, key=lambda x: x.char_span.stop)`:
the new element goes after every already placed element with a stop offset
that is less than or equal to its own. -/
def insertByStop : List Entity → Entity → List Entity
  | [], e => [e]
  | x :: xs, e => if x.stop ≤ e.stop then x :: insertByStop xs e else e :: x :: xs

/-- `sorted(entities, key=lambda x: x.char_span.stop)` (stable, ascending). -/
def sortByStop (entities : List Entity) : List Entity := entities.foldl insertByStop []

/-- The reconstruction loop of `filter_nested_entities`: walk `dp_array[::-1]`
(our reversed list front to back), stop at the sentinel, take every entry whose
end is at most the cursor `p`, and decrement `p` by the taken entity's length.
`p` is an `Int` because the Python subtraction can go below zero. -/
def reconstructIndependentSet : List DpEntry → Int → List Entity
  | [], _ => []
  | d :: rest, p =>
    match d.last_entity with
    | none => []
    | some e =>
      if (d.position_end : Int) ≤ p then
        e :: reconstructIndependentSet rest (p - (e.length : Int))
      else
        reconstructIndependentSet rest p

/-- The per-document body of `filter_nested_entities`: dp table construction
over the entities sorted by end offset, followed by the backward
reconstruction starting from `p = dp_array[-1][0]`. -/
def filterNestedEntitiesDoc (entities : List Entity) : List Entity :=
  let rdp := (sortByStop entities).foldl dpStep [⟨0, 0, 0, none⟩]
  reconstructIndependentSet rdp ((rdp.headD ⟨0, 0, 0, none⟩).position_end : Int)

/-- `InternalBioNerDataset`: two Python dicts keyed by document id, modelled as
association lists with unique keys. -/
structure InternalBioNerDataset where
  documents : List (String × String)
  entities_per_document : List (String × List Entity)
deriving DecidableEq

/-- Python dict lookup `m[k]` / `m.get(k)` on the association-list model. -/
def dictGet? {α : Type} (m : List (String × α)) (k : String) : Option α :=
  (m.find? (fun p => p.1 == k)).map (fun p => p.2)

/-- Python `m[k] = v`: replace the value in place when the key is present,
append the new pair otherwise. -/
def dictInsert {α : Type} (m : List (String × α)) (k : String) (v : α) :
    List (String × α) :=
  match m with
  | [] => [(k, v)]
  | p :: rest => if p.1 == k then (k, v) :: rest else p :: dictInsert rest k v

/-- Python `m1.update(m2)`. -/
def dictUpdate {α : Type} (m1 m2 : List (String × α)) : List (String × α) :=
  m2.foldl (fun acc p => dictInsert acc p.1 p.2) m1

/-- `merge_datasets`: fold `update` of both dicts over the given datasets,
starting from empty dicts. -/
def merge_datasets (data_sets : List InternalBioNerDataset) : InternalBioNerDataset :=
  let all := data_sets.foldl
    (fun acc ds => (dictUpdate acc.1 ds.documents, dictUpdate acc.2 ds.entities_per_document))
    (([] : List (String × String)), ([] : List (String × List Entity)))
  { documents := all.1, entities_per_document := all.2 }

/-- A Python dict never holds two entries with the same key. -/
def keysNodup {α : Type} (m : List (String × α)) : Prop := (m.map Prod.fst).Nodup

instance {α : Type} (m : List (String × α)) : Decidable (keysNodup m) :=
  inferInstanceAs (Decidable (m.map Prod.fst).Nodup)

/-- Spec-side description of last-write-wins merging: the value attached to a
key is the one from the last input mapping that contains the key. -/
def lastContaining {α : Type} (ms : List (List (String × α))) (k : String) : Option α :=
  (ms.filterMap (fun m => dictGet? m k)).getLast?

/-- The loop body of `filter_and_map_entities`: append a relabelled copy when
the entity's type is a key of the map, keep the accumulator unchanged (the
Python `pass` after the debug log) otherwise. -/
def mapEntityStep (entity_type_to_canonical : List (String × String))
    (new_entities : List Entity) (entity : Entity) : List Entity :=
  match dictGet? entity_type_to_canonical entity.type with
  | some canonical => new_entities ++ [{ entity with type := canonical }]
  | none => new_entities

/-- `filter_and_map_entities`: per document, retain (in order) the entities
whose type is a key of the map, each as a copy carrying the canonical type;
drop the rest.  The inner loop is the Python `for entity in entities` with
`new_entities.append(...)`. -/
def filter_and_map_entities (dataset : InternalBioNerDataset)
    (entity_type_to_canonical : List (String × String)) : InternalBioNerDataset :=
  { documents := dataset.documents,
    entities_per_document :=
      dataset.entities_per_document.map (fun p =>
        (p.1, p.2.foldl (mapEntityStep entity_type_to_canonical) [])) }

/-- Spec-side description of the entity mapping step: keep exactly the
entities whose type is a key of the map, relabelled with the canonical type,
in input order. -/
def specMappedEntities (entity_type_to_canonical : List (String × String))
    (entities : List Entity) : List Entity :=
  entities.filterMap (fun e =>
    (dictGet? entity_type_to_canonical e.type).map (fun t => { e with type := t }))

/-- `filter_nested_entities` on a whole dataset: rewrite every document's
entity list through the dp resolver and emit the warning (modelled as
`some removed`) exactly when the total number of entities changed.  The
removed count is an `Int` because the Python difference may be negative. -/
def filter_nested_entities (dataset : InternalBioNerDataset) :
    InternalBioNerDataset × Option Int :=
  let num_entities_before : Nat :=
    (dataset.entities_per_document.map (fun p => p.2.length)).sum
  let new_entities := dataset.entities_per_document.map
    (fun p => (p.1, filterNestedEntitiesDoc p.2))
  let num_entities_after : Nat := (new_entities.map (fun p => p.2.length)).sum
  ({ dataset with entities_per_document := new_entities },
    if num_entities_before ≠ num_entities_after then
      some ((num_entities_before : Int) - (num_entities_after : Int))
    else none)

/-- One output line of the writer: `<token> <tag> <whitespace-marker>`. -/
structure Row where
  token : String
  tag : String
  whitespace_after : String
deriving DecidableEq

/-- The writer's loop state: `current_entity`, the deque of remaining
entities, and the `in_entity` flag. -/
structure TokState where
  current_entity : Option Entity
  entities : List Entity
  in_entity : Bool
deriving DecidableEq

/-- The inner `while current_entity and offset >= current_entity.char_span.stop`
loop: pop entities whose span ended at or before the token offset. -/
def advanceEntities (offset : Nat) : Option Entity → List Entity → Option Entity × List Entity
  | none, entities => (none, entities)
  | some ce, entities =>
    if ce.stop ≤ offset then
      match entities with
      | [] => (none, [])
      | e :: rest => advanceEntities offset (some e) rest
    else (some ce, entities)

/-- The `whitespace_after` computation of `write_to_conll`: `"-"` when the
character right after the token lies strictly before the sentence end and is
not whitespace, `"+"` otherwise.  Out-of-range indexing (which would raise in
Python) is totalised with a whitespace default; the theorems below only use
this definition under an in-bounds hypothesis. -/
def whitespaceAfterMarker (document_text : String) (sentence_end_offset next_token_offset : Nat) :
    String :=
  if next_token_offset < sentence_end_offset ∧
      (document_text.data.getD next_token_offset ' ').isWhitespace = false then "-"
  else "+"

/-- Python `str.strip()`: remove leading and trailing whitespace.  Defined on
the character list so that the kernel can evaluate it. -/
def pyStrip (s : String) : String :=
  ⟨((s.data.dropWhile Char.isWhitespace).reverse.dropWhile Char.isWhitespace).reverse⟩

/-- The per-token body of `write_to_conll`: strip the token, advance past
entities that end at or before the token's absolute offset (clearing
`in_entity`), assign `B-`/`I-`/`O`, compute the whitespace marker, and emit a
row when the stripped token is non-empty. -/
def stepToken (document_text : String) (sentence_offset sentence_length : Nat)
    (st : TokState) (raw_token : String) (token_offset : Nat) : TokState × Option Row :=
  let token := pyStrip raw_token
  let offset := sentence_offset + token_offset
  let st1 : TokState :=
    match st.current_entity with
    | some ce =>
      if ce.stop ≤ offset then
        match advanceEntities offset (some ce) st.entities with
        | (c, q) => ⟨c, q, false⟩
      else st
    | none => st
  let tagged : String × Bool :=
    match st1.current_entity with
    | some ce =>
      if ce.start ≤ offset ∧ offset < ce.stop then
        if st1.in_entity then ("I-" ++ ce.type, true) else ("B-" ++ ce.type, true)
      else ("O", false)
    | none => ("O", false)
  let row : Option Row :=
    if 0 < token.length then
      some ⟨token, tagged.1,
        whitespaceAfterMarker document_text (sentence_offset + sentence_length)
          (offset + token.length)⟩
    else none
  (⟨st1.current_entity, st1.entities, tagged.2⟩, row)

/-- The token loop of `write_to_conll` over one sentence's
`zip(tokens, token_offsets)`. -/
def runTokens (document_text : String) (sentence_offset sentence_length : Nat) :
    TokState → List (String × Nat) → TokState × List Row
  | st, [] => (st, [])
  | st, tk :: rest =>
    let step := stepToken document_text sentence_offset sentence_length st tk.1 tk.2
    let more := runTokens document_text sentence_offset sentence_length step.1 rest
    (more.1, match step.2 with | some r => r :: more.2 | none => more.2)

/-- The sentence loop of `write_to_conll`: `in_entity` starts as `False` in
every sentence, while `current_entity` and the deque persist across
sentences.  One row list is produced per sentence. -/
def processSentences (document_text : String) (tokenizer : String → List String × List Nat) :
    Option Entity → List Entity → List (String × Nat) → List (List Row)
  | _, _, [] => []
  | ce, q, s :: rest =>
    let run := runTokens document_text s.2 s.1.length ⟨ce, q, false⟩
      ((tokenizer s.1).1.zip (tokenizer s.1).2)
    run.2 :: processSentences document_text tokenizer run.1.current_entity run.1.entities rest

/-- Stable insertion used to model `sorted(..., key=attrgetter("char_span.start",
"char_span.stop"))`. -/
def insertByStartStop : List Entity → Entity → List Entity
  | [], e => [e]
  | x :: xs, e =>
    if x.start < e.start ∨ (x.start = e.start ∧ x.stop ≤ e.stop) then
      x :: insertByStartStop xs e
    else e :: x :: xs

/-- `sorted(entities, key=attrgetter("char_span.start", "char_span.stop"))`. -/
def sortByStartStop (entities : List Entity) : List Entity :=
  entities.foldl insertByStartStop []

/-- The per-document body of `write_to_conll` (the document text is taken
after the `ftfy` repair, and the entity list is the document's list as stored
in the dataset): sort the entities, seed `current_entity` with the first one,
and run the sentence loop over `zip(sentences, sentence_offsets)`. -/
def write_to_conll_doc (tokenizer sentence_splitter : String → List String × List Nat)
    (document_text : String) (doc_entities : List Entity) : List (List Row) :=
  let sp := sentence_splitter document_text
  match sortByStartStop doc_entities with
  | [] => processSentences document_text tokenizer none [] (sp.1.zip sp.2)
  | e :: rest => processSentences document_text tokenizer (some e) rest (sp.1.zip sp.2)

/-- Pairwise non-intersection of all spans in a list (the spec's
"pairwise non-overlapping" requirement on the resolver output). -/
def pairwiseNonIntersecting : List Entity → Bool
  | [] => true
  | e :: rest => rest.all (fun x => !(specIntervalsIntersect e x)) && pairwiseNonIntersecting rest

/-- Total covered character length of a list of entities, the secondary key of
the resolver's objective. -/
def totalLength (entities : List Entity) : Nat := (entities.map Entity.length).sum

/-- C3: claimed, `overlaps(a,b)` holds iff the half-open spans intersect, and
is symmetric, including when one span strictly contains the other.  On
`a = (1,2)` and `b = (0,3)` the spans intersect (`b` strictly contains `a`),
yet `overlaps a b` is `false` while `overlaps b a` is `true`: the code misses
the containment case and is not symmetric. -/
theorem c3_overlaps_misses_containment :
    specIntervalsIntersect ⟨1, 2, "A"⟩ ⟨0, 3, "B"⟩ = true ∧
    Entity.overlaps ⟨1, 2, "A"⟩ ⟨0, 3, "B"⟩ = false ∧
    Entity.overlaps ⟨0, 3, "B"⟩ ⟨1, 2, "A"⟩ = true := by decide

/-- C1: claimed, the resolver output is pairwise non-overlapping.  On a
document with entities `[(0,2,X), (0,3,Y), (5,7,Z)]` the resolver returns all
three entities, and the returned list contains the pair `(0,3,Y)`, `(0,2,X)`
which overlaps both under the code's own `overlaps` predicate and as
intersecting half-open spans. -/
theorem c1_resolver_output_overlaps :
    filterNestedEntitiesDoc [⟨0, 2, "X"⟩, ⟨0, 3, "Y"⟩, ⟨5, 7, "Z"⟩]
      = [⟨5, 7, "Z"⟩, ⟨0, 3, "Y"⟩, ⟨0, 2, "X"⟩] ∧
    Entity.overlaps ⟨0, 3, "Y"⟩ ⟨0, 2, "X"⟩ = true ∧
    specIntervalsIntersect ⟨0, 3, "Y"⟩ ⟨0, 2, "X"⟩ = true := by decide

/-- C2 counterexample: the claim states that on input
`[(0,5,X), (3,10,Y), (10,15,X)]` the output is `{(0,5,X), (10,15,X)}`; the
code instead returns `[(10,15,X), (3,10,Y)]`, and `(0,5,X)` is not in the
output. -/
theorem c2_example_output_differs :
    filterNestedEntitiesDoc [⟨0, 5, "X"⟩, ⟨3, 10, "Y"⟩, ⟨10, 15, "X"⟩]
      = [⟨10, 15, "X"⟩, ⟨3, 10, "Y"⟩] ∧
    (⟨0, 5, "X"⟩ : Entity) ∉
      filterNestedEntitiesDoc [⟨0, 5, "X"⟩, ⟨3, 10, "Y"⟩, ⟨10, 15, "X"⟩] := by decide

/-- C2 amended: on input `[(0,5,X), (3,10,Y), (10,15,X)]` the resolver
returns `{(3,10,Y), (10,15,X)}`, which is pairwise non-overlapping and, over
all pairwise non-overlapping sublists of the input, attains the maximal
cardinality (2) and, among those, the maximal total covered length (12).  (The
set `{(0,5,X), (10,15,X)}` expected by the claim only covers 10 characters.) -/
theorem c2_amended_two_level_optimum :
    filterNestedEntitiesDoc [⟨0, 5, "X"⟩, ⟨3, 10, "Y"⟩, ⟨10, 15, "X"⟩]
      = [⟨10, 15, "X"⟩, ⟨3, 10, "Y"⟩] ∧
    pairwiseNonIntersecting [⟨10, 15, "X"⟩, ⟨3, 10, "Y"⟩] = true ∧
    totalLength [⟨10, 15, "X"⟩, ⟨3, 10, "Y"⟩] = 12 ∧
    (([⟨0, 5, "X"⟩, ⟨3, 10, "Y"⟩, ⟨10, 15, "X"⟩] : List Entity).sublists.all
      (fun s => !(pairwiseNonIntersecting s) ||
        (decide (s.length < 2) ||
          (decide (s.length = 2) && decide (totalLength s ≤ 12))))) = true := by decide

/-- C6: constructing an entity fails exactly when `end <= start`, succeeds for
every span with `start < end`, and every successfully constructed entity
satisfies `start < stop`. -/
theorem c6_entity_construction (s e : Nat) (t : String) :
    (e ≤ s → Entity.make (s, e) t = none) ∧
    (s < e → Entity.make (s, e) t = some ⟨s, e, t⟩) ∧
    (∀ ent, Entity.make (s, e) t = some ent → ent.start < ent.stop) := by
  refine ⟨fun h => ?_, fun h => ?_, fun ent h => ?_⟩
  · simp [Entity.make, Nat.not_lt.mpr h]
  · simp [Entity.make, h]
  · by_cases hc : s < e
    · simp [Entity.make, hc] at h
      rw [← h]
      exact hc
    · simp [Entity.make, hc] at h

/-- Witness for C6 at concrete inputs. -/
theorem c6_entity_construction_witness :
    Entity.make (3, 3) "T" = none ∧ Entity.make (1, 4) "T" = some ⟨1, 4, "T"⟩ :=
  ⟨(c6_entity_construction 3 3 "T").1 (by decide),
   (c6_entity_construction 1 4 "T").2.1 (by decide)⟩

/-- C5: for every row the per-token loop emits, the whitespace marker is `"-"`
exactly when the character right after the (stripped) token exists in the
document text, lies strictly before the sentence end offset, and is not
whitespace; in every other case it is `"+"`.  The hypothesis states that the
sentence lies inside the document, which is what makes the Python indexing
`document_text[next_token_offset]` defined. -/
theorem c5_whitespace_marker (document_text : String) (so sl : Nat) (st : TokState)
    (t : String) (o : Nat) (row : Row)
    (hbound : so + sl ≤ document_text.length)
    (hrow : (stepToken document_text so sl st t o).2 = some row) :
    (row.whitespace_after = "-" ↔
      (so + o + (pyStrip t).length < document_text.data.length ∧
       so + o + (pyStrip t).length < so + sl ∧
       (document_text.data.getD (so + o + (pyStrip t).length) ' ').isWhitespace = false)) ∧
    (row.whitespace_after = "+" ↔
      ¬(so + o + (pyStrip t).length < document_text.data.length ∧
        so + o + (pyStrip t).length < so + sl ∧
        (document_text.data.getD (so + o + (pyStrip t).length) ' ').isWhitespace = false)) := by
  simp only [stepToken] at hrow
  by_cases ht : 0 < (pyStrip t).length
  · rw [if_pos ht] at hrow
    have hw : row.whitespace_after
        = whitespaceAfterMarker document_text (so + sl) (so + o + (pyStrip t).length) := by
      cases hrow
      rfl
    rw [hw, whitespaceAfterMarker]
    by_cases hc : (so + o + (pyStrip t).length < so + sl ∧
        (document_text.data.getD (so + o + (pyStrip t).length) ' ').isWhitespace = false)
    · rw [if_pos hc]
      have hex : so + o + (pyStrip t).length < document_text.data.length :=
        Nat.lt_of_lt_of_le hc.1 hbound
      constructor
      · exact ⟨fun _ => ⟨hex, hc.1, hc.2⟩, fun _ => rfl⟩
      · constructor
        · intro h
          exact absurd h (by decide)
        · intro h
          exact absurd ⟨hex, hc.1, hc.2⟩ h
    · rw [if_neg hc]
      constructor
      · constructor
        · intro h
          exact absurd h (by decide)
        · intro h
          exact absurd ⟨h.2.1, h.2.2⟩ hc
      · exact ⟨fun _ => fun h => hc ⟨h.2.1, h.2.2⟩, fun _ => rfl⟩
  · rw [if_neg ht] at hrow
    exact absurd hrow (by simp)

/-- Witness for C5: in `"ab-cd"` the character after the token `"ab"` is the
non-whitespace `'-'`, so the marker is `"-"` and not `"+"`. -/
theorem c5_whitespace_marker_witness :
    ((Row.mk "ab" "O" "-").whitespace_after = "-" ↔
      (0 + 0 + (pyStrip "ab").length < "ab-cd".data.length ∧
       0 + 0 + (pyStrip "ab").length < 0 + 5 ∧
       ("ab-cd".data.getD (0 + 0 + (pyStrip "ab").length) ' ').isWhitespace = false)) ∧
    ((Row.mk "ab" "O" "-").whitespace_after = "+" ↔
      ¬(0 + 0 + (pyStrip "ab").length < "ab-cd".data.length ∧
        0 + 0 + (pyStrip "ab").length < 0 + 5 ∧
        ("ab-cd".data.getD (0 + 0 + (pyStrip "ab").length) ' ').isWhitespace = false)) :=
  c5_whitespace_marker "ab-cd" 0 5 ⟨none, [], false⟩ "ab" 0 ⟨"ab", "O", "-"⟩ (by decide) (by decide)

/-- Resolving an empty entity list yields an empty list. -/
lemma filterNestedEntitiesDoc_nil : filterNestedEntitiesDoc [] = [] := rfl

/-- Resolving a dataset whose entity lists are all empty leaves the entity map
unchanged. -/
lemma map_resolve_of_all_nil (l : List (String × List Entity))
    (h : ∀ p ∈ l, p.2 = ([] : List Entity)) :
    l.map (fun p => (p.1, filterNestedEntitiesDoc p.2)) = l := by
  induction l with
  | nil => rfl
  | cons p rest ih =>
    obtain ⟨a, b⟩ := p
    have hp : b = [] := h (a, b) (by simp)
    subst hp
    simp only [List.map_cons, filterNestedEntitiesDoc_nil]
    rw [ih (fun x hx => h x (by simp [hx]))]

/-- C7: `filter_nested_entities` emits its warning exactly when the total
entity count over all documents changed, and on a dataset whose per-document
entity lists are all empty it returns all-empty lists and no warning. -/
theorem c7_warning_iff_counts_differ (dataset : InternalBioNerDataset) :
    ((filter_nested_entities dataset).2.isSome ↔
      (((filter_nested_entities dataset).1.entities_per_document.map
          (fun p => p.2.length)).sum
        ≠ (dataset.entities_per_document.map (fun p => p.2.length)).sum)) ∧
    ((∀ p ∈ dataset.entities_per_document, p.2 = ([] : List Entity)) →
      (∀ p ∈ (filter_nested_entities dataset).1.entities_per_document,
          p.2 = ([] : List Entity)) ∧
      (filter_nested_entities dataset).2 = none) := by
  have hepd : (filter_nested_entities dataset).1.entities_per_document
      = dataset.entities_per_document.map (fun p => (p.1, filterNestedEntitiesDoc p.2)) := rfl
  have hwarn : (filter_nested_entities dataset).2
      = (if (dataset.entities_per_document.map (fun p => p.2.length)).sum
            ≠ ((dataset.entities_per_document.map
                (fun p => (p.1, filterNestedEntitiesDoc p.2))).map (fun p => p.2.length)).sum
          then some
            ((((dataset.entities_per_document.map (fun p => p.2.length)).sum : Nat) : Int)
              - ((((dataset.entities_per_document.map
                  (fun p => (p.1, filterNestedEntitiesDoc p.2))).map
                    (fun p => p.2.length)).sum : Nat) : Int))
          else none) := rfl
  constructor
  · rw [hwarn, hepd]
    by_cases hc : (dataset.entities_per_document.map (fun p => p.2.length)).sum
        = ((dataset.entities_per_document.map
            (fun p => (p.1, filterNestedEntitiesDoc p.2))).map (fun p => p.2.length)).sum
    · rw [if_neg (fun hne => hne hc)]
      exact ⟨fun h => absurd h (by simp), fun hne => absurd hc.symm hne⟩
    · rw [if_pos hc]
      exact ⟨fun _ => fun hba => hc hba.symm, fun _ => rfl⟩
  · intro h
    have hmap := map_resolve_of_all_nil dataset.entities_per_document h
    rw [hwarn, hepd, hmap]
    refine ⟨h, ?_⟩
    rw [if_neg (fun hne => hne rfl)]

/-- Witness for C7: a dataset with one document and no entities gives no
warning and an empty output list. -/
theorem c7_warning_iff_counts_differ_witness :
    (∀ p ∈ (filter_nested_entities ⟨[("d", "t")], [("d", [])]⟩).1.entities_per_document,
        p.2 = ([] : List Entity)) ∧
    (filter_nested_entities ⟨[("d", "t")], [("d", [])]⟩).2 = none :=
  (c7_warning_iff_counts_differ ⟨[("d", "t")], [("d", [])]⟩).2 (by decide)

/-- The accumulating loop of `filter_and_map_entities` over one entity list is
append of the mapped-and-filtered entities. -/
lemma foldl_entities_mapped (m : List (String × String)) (l : List Entity) (acc : List Entity) :
    l.foldl (mapEntityStep m) acc = acc ++ specMappedEntities m l := by
  induction l generalizing acc with
  | nil => simp [specMappedEntities]
  | cons e rest ih =>
    simp only [List.foldl_cons]
    cases hm : dictGet? m e.type with
    | some c => simp [mapEntityStep, hm, ih, specMappedEntities, List.filterMap_cons]
    | none => simp [mapEntityStep, hm, ih, specMappedEntities, List.filterMap_cons]

/-- Looking a key up after mapping every value commutes with the lookup. -/
lemma dictGet?_map_values {α β : Type} (f : α → β) (m : List (String × α)) (k : String) :
    dictGet? (m.map (fun p => (p.1, f p.2))) k = (dictGet? m k).map f := by
  induction m with
  | nil => rfl
  | cons p rest ih =>
    simp only [List.map_cons, dictGet?, List.find?]
    cases hpk : (p.1 == k) with
    | true => simp
    | false =>
      simp only [dictGet?] at ih
      simpa using ih

/-- C8: `filter_and_map_entities` keeps the document map unchanged and, for
every document id, replaces the entity list with exactly the input entities
whose type is a key of the map, relabelled with the canonical type, in input
order (entities of unmapped types are dropped). -/
theorem c8_filter_and_map_entities (dataset : InternalBioNerDataset)
    (m : List (String × String)) :
    (filter_and_map_entities dataset m).documents = dataset.documents ∧
    ∀ k, dictGet? (filter_and_map_entities dataset m).entities_per_document k
        = (dictGet? dataset.entities_per_document k).map (specMappedEntities m) := by
  refine ⟨rfl, fun k => ?_⟩
  show dictGet? (dataset.entities_per_document.map
    (fun p => (p.1, p.2.foldl (mapEntityStep m) []))) k
    = (dictGet? dataset.entities_per_document k).map (specMappedEntities m)
  rw [dictGet?_map_values (fun l : List Entity => l.foldl (mapEntityStep m) [])]
  cases hd : dictGet? dataset.entities_per_document k with
  | none => rfl
  | some l => simp [foldl_entities_mapped]

/-- First-some choice on options, used to phrase the dict-update lemmas. -/
def orElseO {α : Type} : Option α → Option α → Option α
  | some v, _ => some v
  | none, y => y

lemma orElseO_none {α : Type} (x : Option α) : orElseO x none = x := by
  cases x <;> rfl

lemma orElseO_assoc {α : Type} (x y z : Option α) :
    orElseO x (orElseO y z) = orElseO (orElseO x y) z := by
  cases x <;> cases y <;> rfl

lemma dictGet?_cons {α : Type} (p : String × α) (rest : List (String × α)) (k : String) :
    dictGet? (p :: rest) k = if p.1 == k then some p.2 else dictGet? rest k := by
  cases hpk : (p.1 == k) <;> simp [dictGet?, List.find?, hpk]

/-- Lookup after a Python-style dict assignment. -/
lemma dictGet?_dictInsert {α : Type} (m : List (String × α)) (k k' : String) (v : α) :
    dictGet? (dictInsert m k v) k' = if k' = k then some v else dictGet? m k' := by
  induction m with
  | nil =>
    by_cases hk : k' = k
    · subst hk
      simp [dictInsert, dictGet?_cons]
    · have h1 : (k == k') = false := beq_eq_false_iff_ne.mpr (fun h => hk h.symm)
      simp [dictInsert, dictGet?_cons, hk, h1, dictGet?]
  | cons p rest ih =>
    by_cases hp : p.1 = k
    · have hb : (p.1 == k) = true := beq_iff_eq.mpr hp
      have hins : dictInsert (p :: rest) k v = (k, v) :: rest := by
        simp [dictInsert, hb]
      rw [hins]
      by_cases hk : k' = k
      · subst hk
        simp [dictGet?_cons]
      · have h1 : (k == k') = false := beq_eq_false_iff_ne.mpr (fun h => hk h.symm)
        have h2 : (p.1 == k') = false :=
          beq_eq_false_iff_ne.mpr (fun h => hk (h.symm.trans hp))
        simp [dictGet?_cons, h1, h2, hk]
    · have hb : (p.1 == k) = false := beq_eq_false_iff_ne.mpr hp
      have hins : dictInsert (p :: rest) k v = p :: dictInsert rest k v := by
        simp [dictInsert, hb]
      rw [hins, dictGet?_cons, dictGet?_cons, ih]
      by_cases hpk' : p.1 = k'
      · have hk : ¬(k' = k) := fun h => hp (hpk'.trans h)
        have h1 : (p.1 == k') = true := beq_iff_eq.mpr hpk'
        simp [h1, hk]
      · have h1 : (p.1 == k') = false := beq_eq_false_iff_ne.mpr hpk'
        simp [h1]

/-- Lookup of an absent key. -/
lemma dictGet?_eq_none_of_not_mem {α : Type} (m : List (String × α)) (k : String)
    (h : k ∉ m.map Prod.fst) : dictGet? m k = none := by
  induction m with
  | nil => rfl
  | cons p rest ih =>
    have h1 : (p.1 == k) = false :=
      beq_eq_false_iff_ne.mpr (fun hh => h (by simp [hh]))
    rw [dictGet?_cons, if_neg (by simp [h1])]
    exact ih (fun hm => h (by simp [hm]))

/-- Lookup after `m1.update(m2)` for a duplicate-free `m2`: the value comes
from `m2` when the key is there, and from `m1` otherwise. -/
lemma dictGet?_dictUpdate {α : Type} (m1 m2 : List (String × α)) (k : String)
    (h : keysNodup m2) :
    dictGet? (dictUpdate m1 m2) k = orElseO (dictGet? m2 k) (dictGet? m1 k) := by
  induction m2 generalizing m1 with
  | nil => rfl
  | cons p rest ih =>
    have hn : keysNodup rest := by
      have hh := h
      simp only [keysNodup, List.map_cons, List.nodup_cons] at hh
      exact hh.2
    have hpn : p.1 ∉ rest.map Prod.fst := by
      have hh := h
      simp only [keysNodup, List.map_cons, List.nodup_cons] at hh
      exact hh.1
    have hrestnone : dictGet? rest p.1 = none := dictGet?_eq_none_of_not_mem rest p.1 hpn
    simp only [dictUpdate, List.foldl_cons]
    rw [show rest.foldl (fun acc q => dictInsert acc q.1 q.2) (dictInsert m1 p.1 p.2)
        = dictUpdate (dictInsert m1 p.1 p.2) rest from rfl]
    rw [ih _ hn]
    by_cases hk : k = p.1
    · subst hk
      rw [hrestnone, dictGet?_cons]
      simp [dictGet?_dictInsert, orElseO]
    · rw [dictGet?_cons, if_neg (by simpa using fun hh => hk hh.symm)]
      cases hr : dictGet? rest k with
      | some v => simp [orElseO]
      | none => simp [orElseO, dictGet?_dictInsert, hk]

lemma lastContaining_cons {α : Type} (m : List (String × α)) (ms : List (List (String × α)))
    (k : String) :
    lastContaining (m :: ms) k = orElseO (lastContaining ms k) (dictGet? m k) := by
  unfold lastContaining
  cases hm : dictGet? m k with
  | none => simp [List.filterMap_cons, hm, orElseO_none]
  | some v =>
    simp only [List.filterMap_cons, hm]
    cases ht : (ms.filterMap (fun m => dictGet? m k)) with
    | nil => rfl
    | cons b t => rfl

lemma merge_foldl_fst (dss : List InternalBioNerDataset)
    (acc : List (String × String) × List (String × List Entity)) :
    (dss.foldl (fun acc ds =>
        (dictUpdate acc.1 ds.documents, dictUpdate acc.2 ds.entities_per_document)) acc).1
      = dss.foldl (fun a ds => dictUpdate a ds.documents) acc.1 := by
  induction dss generalizing acc with
  | nil => rfl
  | cons d rest ih => simp only [List.foldl_cons]; rw [ih]

lemma merge_foldl_snd (dss : List InternalBioNerDataset)
    (acc : List (String × String) × List (String × List Entity)) :
    (dss.foldl (fun acc ds =>
        (dictUpdate acc.1 ds.documents, dictUpdate acc.2 ds.entities_per_document)) acc).2
      = dss.foldl (fun a ds => dictUpdate a ds.entities_per_document) acc.2 := by
  induction dss generalizing acc with
  | nil => rfl
  | cons d rest ih => simp only [List.foldl_cons]; rw [ih]

lemma dictGet?_foldl_update {α : Type} (proj : InternalBioNerDataset → List (String × α))
    (dss : List InternalBioNerDataset) (acc : List (String × α)) (k : String)
    (h : ∀ ds ∈ dss, keysNodup (proj ds)) :
    dictGet? (dss.foldl (fun a ds => dictUpdate a (proj ds)) acc) k
      = orElseO (lastContaining (dss.map proj) k) (dictGet? acc k) := by
  induction dss generalizing acc with
  | nil => rfl
  | cons d rest ih =>
    simp only [List.foldl_cons, List.map_cons]
    rw [ih _ (fun ds hds => h ds (by simp [hds])),
      dictGet?_dictUpdate _ _ _ (h d (by simp)), lastContaining_cons, orElseO_assoc]

/-- C9: `merge_datasets` unions the document and entity mappings key-wise; for
every key the merged value is the one from the last input dataset containing
that key (none when no input contains it).  The hypotheses record that the
inputs are Python dicts, i.e. duplicate-free association lists. -/
theorem c9_merge_last_write_wins (data_sets : List InternalBioNerDataset) (k : String)
    (hdocs : ∀ ds ∈ data_sets, keysNodup ds.documents)
    (hents : ∀ ds ∈ data_sets, keysNodup ds.entities_per_document) :
    dictGet? (merge_datasets data_sets).documents k
        = lastContaining (data_sets.map (fun ds => ds.documents)) k ∧
    dictGet? (merge_datasets data_sets).entities_per_document k
        = lastContaining (data_sets.map (fun ds => ds.entities_per_document)) k := by
  constructor
  · show dictGet? (data_sets.foldl (fun acc ds =>
        (dictUpdate acc.1 ds.documents, dictUpdate acc.2 ds.entities_per_document))
        ([], [])).1 k = _
    rw [merge_foldl_fst, dictGet?_foldl_update (fun ds => ds.documents) data_sets [] k hdocs]
    exact orElseO_none _
  · show dictGet? (data_sets.foldl (fun acc ds =>
        (dictUpdate acc.1 ds.documents, dictUpdate acc.2 ds.entities_per_document))
        ([], [])).2 k = _
    rw [merge_foldl_snd,
      dictGet?_foldl_update (fun ds => ds.entities_per_document) data_sets [] k hents]
    exact orElseO_none _

/-- Witness for C9: two datasets sharing the document id `"a"`; the merged
value is the second dataset's. -/
theorem c9_merge_last_write_wins_witness :
    dictGet? (merge_datasets [⟨[("a", "ta")], [("a", [])]⟩, ⟨[("a", "tb")], []⟩]).documents "a"
        = lastContaining
            (([⟨[("a", "ta")], [("a", [])]⟩, ⟨[("a", "tb")], []⟩] :
              List InternalBioNerDataset).map (fun ds => ds.documents)) "a" ∧
    dictGet? (merge_datasets
        [⟨[("a", "ta")], [("a", [])]⟩, ⟨[("a", "tb")], []⟩]).entities_per_document "a"
        = lastContaining
            (([⟨[("a", "ta")], [("a", [])]⟩, ⟨[("a", "tb")], []⟩] :
              List InternalBioNerDataset).map (fun ds => ds.entities_per_document)) "a" :=
  c9_merge_last_write_wins [⟨[("a", "ta")], [("a", [])]⟩, ⟨[("a", "tb")], []⟩] "a"
    (by decide) (by decide)

/-- A token covered by the pending entity: no advancing happens, the tag is
`B-` or `I-` according to the `in_entity` flag, and the flag is set. -/
lemma stepToken_covered (document_text : String) (so sl : Nat) (e : Entity) (q : List Entity)
    (ine : Bool) (t : String) (o : Nat)
    (h1 : e.start ≤ so + o) (h2 : so + o < e.stop) :
    stepToken document_text so sl ⟨some e, q, ine⟩ t o
      = (⟨some e, q, true⟩,
         if 0 < (pyStrip t).length then
           some ⟨pyStrip t, (if ine then "I-" else "B-") ++ e.type,
             whitespaceAfterMarker document_text (so + sl) (so + o + (pyStrip t).length)⟩
         else none) := by
  have hadv : ¬ e.stop ≤ so + o := Nat.not_le.mpr h2
  cases ine <;> simp [stepToken, hadv, h1, h2]

/-- A token strictly before the pending entity: no advancing, tag `O`, flag
cleared. -/
lemma stepToken_before (document_text : String) (so sl : Nat) (e : Entity) (q : List Entity)
    (ine : Bool) (t : String) (o : Nat)
    (he : e.start < e.stop) (h : so + o < e.start) :
    stepToken document_text so sl ⟨some e, q, ine⟩ t o
      = (⟨some e, q, false⟩,
         if 0 < (pyStrip t).length then
           some ⟨pyStrip t, "O",
             whitespaceAfterMarker document_text (so + sl) (so + o + (pyStrip t).length)⟩
         else none) := by
  have hadv : ¬ e.stop ≤ so + o := by omega
  have hin : ¬ (e.start ≤ so + o ∧ so + o < e.stop) := by omega
  cases ine <;> simp [stepToken, hadv, hin]

/-- The token loop distributes over list append. -/
lemma runTokens_append (document_text : String) (so sl : Nat) (st : TokState)
    (xs ys : List (String × Nat)) :
    runTokens document_text so sl st (xs ++ ys)
      = ((runTokens document_text so sl (runTokens document_text so sl st xs).1 ys).1,
         (runTokens document_text so sl st xs).2
           ++ (runTokens document_text so sl (runTokens document_text so sl st xs).1 ys).2) := by
  induction xs generalizing st with
  | nil => simp [runTokens]
  | cons x xs ih =>
    simp only [List.cons_append, runTokens, List.append_eq]
    rw [ih]
    cases hr : (stepToken document_text so sl st x.1 x.2).2 <;> simp [hr]

/-- Tokens entirely before the pending entity leave the writer state
untouched and produce only `O` rows. -/
lemma runTokens_pre_O (document_text : String) (so sl : Nat) (e : Entity) (q : List Entity)
    (pre : List (String × Nat)) (he : e.start < e.stop)
    (hpre : ∀ p ∈ pre, so + p.2 < e.start) :
    (runTokens document_text so sl ⟨some e, q, false⟩ pre).1 = ⟨some e, q, false⟩ ∧
    ∀ r ∈ (runTokens document_text so sl ⟨some e, q, false⟩ pre).2, r.tag = "O" := by
  induction pre with
  | nil => exact ⟨rfl, by simp [runTokens]⟩
  | cons p rest ih =>
    have hp : so + p.2 < e.start := hpre p (by simp)
    have hr := ih (fun x hx => hpre x (by simp [hx]))
    simp only [runTokens, stepToken_before document_text so sl e q false p.1 p.2 he hp]
    by_cases ht : 0 < (pyStrip p.1).length
    · simp only [if_pos ht]
      refine ⟨hr.1, ?_⟩
      intro r hrr
      simp only [List.mem_cons] at hrr
      rcases hrr with h | h
      · rw [h]
      · exact hr.2 r h
    · simp only [if_neg ht]
      exact hr

/-- C4: in a sentence whose token stream is `pre ++ [(t1,o1), (t2,o2)] ++ post`
with one pending entity `e` and no other entity, where the `pre` tokens lie
strictly before the entity and both `(t1,o1)` and `(t2,o2)` fall inside the
entity's span, the writer tags the first covered token `B-<type>` and the
second `I-<type>` (the `pre` tokens are all tagged `O`). -/
theorem c4_tag_continuation
    (tokenizer sentence_splitter : String → List String × List Nat)
    (document_text s : String) (so : Nat) (e : Entity)
    (pre : List (String × Nat)) (t1 t2 : String) (o1 o2 : Nat) (post : List (String × Nat))
    (hsp : sentence_splitter document_text = ([s], [so]))
    (htk : (tokenizer s).1.zip (tokenizer s).2 = pre ++ (t1, o1) :: (t2, o2) :: post)
    (he : e.start < e.stop)
    (hpre : ∀ p ∈ pre, so + p.2 < e.start)
    (h11 : e.start ≤ so + o1) (h12 : so + o1 < e.stop)
    (h21 : e.start ≤ so + o2) (h22 : so + o2 < e.stop)
    (ht1 : 0 < (pyStrip t1).length) (ht2 : 0 < (pyStrip t2).length) :
    ∃ preRows m1 m2 rest,
      write_to_conll_doc tokenizer sentence_splitter document_text [e]
        = [preRows ++ ⟨pyStrip t1, "B-" ++ e.type, m1⟩
            :: ⟨pyStrip t2, "I-" ++ e.type, m2⟩ :: rest] ∧
      ∀ r ∈ preRows, r.tag = "O" := by
  obtain ⟨hst, htags⟩ := runTokens_pre_O document_text so s.length e [] pre he hpre
  refine ⟨(runTokens document_text so s.length ⟨some e, [], false⟩ pre).2,
    whitespaceAfterMarker document_text (so + s.length) (so + o1 + (pyStrip t1).length),
    whitespaceAfterMarker document_text (so + s.length) (so + o2 + (pyStrip t2).length),
    (runTokens document_text so s.length ⟨some e, [], true⟩ post).2, ?_, htags⟩
  have h0 : write_to_conll_doc tokenizer sentence_splitter document_text [e]
      = processSentences document_text tokenizer (some e) []
          ((sentence_splitter document_text).1.zip (sentence_splitter document_text).2) := rfl
  rw [h0, hsp]
  show processSentences document_text tokenizer (some e) [] [(s, so)] = _
  simp only [processSentences, htk, runTokens_append]
  rw [hst]
  simp only [runTokens,
    stepToken_covered document_text so s.length e [] false t1 o1 h11 h12,
    stepToken_covered document_text so s.length e [] true t2 o2 h21 h22,
    if_pos ht1, if_pos ht2]
  simp [processSentences]

/-- Witness for C4: document `"ab cd"` split into one sentence, tokens
`"ab"`/`"cd"` at offsets 0/3, one entity `(0,5,"X")` covering both; the first
token is tagged `B-X` and the second `I-X`. -/
theorem c4_tag_continuation_witness :
    ∃ preRows m1 m2 rest,
      write_to_conll_doc (fun _ => (["ab", "cd"], [0, 3])) (fun _ => (["ab cd"], [0]))
          "ab cd" [⟨0, 5, "X"⟩]
        = [preRows ++ ⟨pyStrip "ab", "B-" ++ Entity.type ⟨0, 5, "X"⟩, m1⟩
            :: ⟨pyStrip "cd", "I-" ++ Entity.type ⟨0, 5, "X"⟩, m2⟩ :: rest] ∧
      ∀ r ∈ preRows, r.tag = "O" :=
  c4_tag_continuation (fun _ => (["ab", "cd"], [0, 3])) (fun _ => (["ab cd"], [0]))
    "ab cd" "ab cd" 0 ⟨0, 5, "X"⟩ [] "ab" "cd" 0 3 []
    rfl rfl (by decide) (by simp) (by decide) (by decide) (by decide) (by decide)
    (by decide) (by decide)

/-- C10: when one entity spans the single tokens of two consecutive sentences,
the writer restarts the tag at the sentence boundary: both covered tokens are
tagged `B-<type>` (the second is not continued as `I-<type>`), because the
`in_entity` flag is reset at the start of every sentence. -/
theorem c10_sentence_boundary_restarts_B
    (tokenizer sentence_splitter : String → List String × List Nat)
    (document_text s1 s2 : String) (so1 so2 : Nat) (e : Entity)
    (t1 t2 : String) (o1 o2 : Nat)
    (hsp : sentence_splitter document_text = ([s1, s2], [so1, so2]))
    (htk1 : (tokenizer s1).1.zip (tokenizer s1).2 = [(t1, o1)])
    (htk2 : (tokenizer s2).1.zip (tokenizer s2).2 = [(t2, o2)])
    (h11 : e.start ≤ so1 + o1) (h12 : so1 + o1 < e.stop)
    (h21 : e.start ≤ so2 + o2) (h22 : so2 + o2 < e.stop)
    (ht1 : 0 < (pyStrip t1).length) (ht2 : 0 < (pyStrip t2).length) :
    ∃ m1 m2,
      write_to_conll_doc tokenizer sentence_splitter document_text [e]
        = [[⟨pyStrip t1, "B-" ++ e.type, m1⟩], [⟨pyStrip t2, "B-" ++ e.type, m2⟩]] := by
  refine ⟨whitespaceAfterMarker document_text (so1 + s1.length)
      (so1 + o1 + (pyStrip t1).length),
    whitespaceAfterMarker document_text (so2 + s2.length)
      (so2 + o2 + (pyStrip t2).length), ?_⟩
  have h0 : write_to_conll_doc tokenizer sentence_splitter document_text [e]
      = processSentences document_text tokenizer (some e) []
          ((sentence_splitter document_text).1.zip (sentence_splitter document_text).2) := rfl
  rw [h0, hsp]
  show processSentences document_text tokenizer (some e) [] [(s1, so1), (s2, so2)] = _
  simp only [processSentences, htk1, htk2, runTokens,
    stepToken_covered document_text so1 s1.length e [] false t1 o1 h11 h12,
    stepToken_covered document_text so2 s2.length e [] false t2 o2 h21 h22,
    if_pos ht1, if_pos ht2]
  simp

/-- Witness for C10: document `"aa bb"` split into sentences `"aa"` and
`"bb"`, one entity `(0,5,"X")` spanning both; both tokens are tagged `B-X`. -/
theorem c10_sentence_boundary_restarts_B_witness :
    ∃ m1 m2,
      write_to_conll_doc (fun s => ([s], [0])) (fun _ => (["aa", "bb"], [0, 3]))
          "aa bb" [⟨0, 5, "X"⟩]
        = [[⟨pyStrip "aa", "B-" ++ Entity.type ⟨0, 5, "X"⟩, m1⟩],
           [⟨pyStrip "bb", "B-" ++ Entity.type ⟨0, 5, "X"⟩, m2⟩]] :=
  c10_sentence_boundary_restarts_B (fun s => ([s], [0])) (fun _ => (["aa", "bb"], [0, 3]))
    "aa bb" "aa" "bb" 0 3 ⟨0, 5, "X"⟩ "aa" "bb" 0 0
    rfl rfl rfl (by decide) (by decide) (by decide) (by decide) (by decide) (by decide)

end Biomedical
